import Mathlib

/-!
Shallow embedding of the `paws` immediate-mode layout engine.

The embedding follows the source modules:
  * `common.rs`  — `Vector` (a pair of coordinates) and `Rect`;
  * `layout.rs`  — `Layout`, `AlignH`, `AlignV`, `Alignment`;
  * `renderer.rs`— `LineCap` and the renderer's transform stack, modelled as a
    state record together with a trace of the drawing operations invoked;
  * `ui.rs`      — `Group`, the group stack, and the operations
    `root`, `push`, `pop`, `remaining_size/width/height`, `align`, `fit`, `draw`.

Coordinates are modelled over `ℚ` (the source uses `f32`; the layout algebra
consists of additions, subtractions and halvings only, so exact arithmetic is
used for the formal statements).  Functions that `panic!`/`expect` in the
source are embedded as `Option`-returning functions, `none` standing for the
fatal contract violation.  The Rust `Vec` group stack grows at the end; here a
`List` with the *head* as the top of the stack is used, so Rust's
`stack.push(g)` is `g :: stack` and `stack.last()` is `List.head?`.
-/

namespace Paws

/-- A two-dimensional vector (`common.rs::Vector`), coordinates over `ℚ`. -/
structure Vector where
  x : ℚ
  y : ℚ
deriving DecidableEq, Repr

/-- Alias for vectors (`common.rs::Point`). -/
abbrev Point := Vector

/-- Componentwise addition of vectors (`impl Add for Vector`). -/
def Vector.add (a b : Vector) : Vector := ⟨a.x + b.x, a.y + b.y⟩

/-- Componentwise subtraction of vectors (`impl Sub for Vector`). -/
def Vector.sub (a b : Vector) : Vector := ⟨a.x - b.x, a.y - b.y⟩

instance : Add Vector := ⟨Vector.add⟩

instance : Sub Vector := ⟨Vector.sub⟩

/-- Unfolding lemma for vector addition. -/
theorem Vector.add_def (a b : Vector) : a + b = ⟨a.x + b.x, a.y + b.y⟩ := rfl

/-- Unfolding lemma for vector subtraction. -/
theorem Vector.sub_def (a b : Vector) : a - b = ⟨a.x - b.x, a.y - b.y⟩ := rfl

/-- An axis-aligned rectangle (`common.rs::Rect`). -/
structure Rect where
  position : Point
  size : Vector
deriving DecidableEq, Repr

/-- Width accessor (`Rect::width`). -/
def Rect.width (r : Rect) : ℚ := r.size.x

/-- Height accessor (`Rect::height`). -/
def Rect.height (r : Rect) : ℚ := r.size.y

/-- Left side (`Rect::left`). -/
def Rect.left (r : Rect) : ℚ := r.position.x

/-- Top side (`Rect::top`). -/
def Rect.top (r : Rect) : ℚ := r.position.y

/-- Right side (`Rect::right`). -/
def Rect.right (r : Rect) : ℚ := r.position.x + r.size.x

/-- Bottom side (`Rect::bottom`). -/
def Rect.bottom (r : Rect) : ℚ := r.position.y + r.size.y

/-- Top-right corner (`Rect::top_right`). -/
def Rect.top_right (r : Rect) : Point := r.position + ⟨r.size.x, 0⟩

/-- Bottom-left corner (`Rect::bottom_left`). -/
def Rect.bottom_left (r : Rect) : Point := r.position + ⟨0, r.size.y⟩

/-- Horizontal center (`Rect::center_x`). -/
def Rect.center_x (r : Rect) : ℚ := r.position.x + r.size.x / 2

/-- Vertical center (`Rect::center_y`). -/
def Rect.center_y (r : Rect) : ℚ := r.position.y + r.size.y / 2

/-- Group layout mode (`layout.rs::Layout`). -/
inductive Layout where
  | Freeform
  | Horizontal
  | Vertical
  | HorizontalRev
  | VerticalRev
deriving DecidableEq, Repr

/-- Horizontal alignment position (`layout.rs::AlignH`). -/
inductive AlignH where
  | Left
  | Center
  | Right
deriving DecidableEq, Repr

/-- Vertical alignment position (`layout.rs::AlignV`). -/
inductive AlignV where
  | Top
  | Middle
  | Bottom
deriving DecidableEq, Repr

/-- Alignment type (`layout.rs::Alignment`), a horizontal/vertical pair. -/
abbrev Alignment := AlignH × AlignV

/-- Line cap style (`renderer.rs::LineCap`). -/
inductive LineCap where
  | Butt
  | Square
  | Round
deriving DecidableEq, Repr

/-- One renderer call observable in a trace: the transform-stack operations
used by `Ui::draw` (`Renderer::push`, `Renderer::pop`, `Renderer::translate`)
plus an opaque tag standing for any other drawing call a callback performs. -/
inductive ROp where
  | push
  | pop
  | translate (v : Vector)
  | other (tag : ℕ)
deriving DecidableEq, Repr

/-- Renderer state: the current translation component of the transform matrix,
the stack of saved transforms (`Renderer::push`/`Renderer::pop`), and the trace
of all renderer calls made so far. -/
structure RState where
  transform : Vector
  saved : List Vector
  trace : List ROp
deriving DecidableEq, Repr

/-- `Renderer::push`: saves the current transform on the stack. -/
def RState.push (s : RState) : RState :=
  { s with saved := s.transform :: s.saved, trace := s.trace ++ [ROp.push] }

/-- `Renderer::pop`: overwrites the current transform with the topmost saved
one and drops it from the stack.  A pop on an empty stack is backend-defined;
the model keeps the transform unchanged there (the core only ever pops what it
itself pushed). -/
def RState.pop (s : RState) : RState :=
  { s with
    transform := s.saved.headD s.transform
    saved := s.saved.tail
    trace := s.trace ++ [ROp.pop] }

/-- `Renderer::translate`: translates the transform by the given vector. -/
def RState.translate (s : RState) (v : Vector) : RState :=
  { s with transform := s.transform + v, trace := s.trace ++ [ROp.translate v] }

/-- A group (`ui.rs::Group`): a rectangle plus layout mode, cursor and the
inherited line-cap rendering state. -/
structure Group where
  rect : Rect
  layout : Layout
  cursor : Vector
  line_cap : LineCap
deriving DecidableEq, Repr

/-- UI state (`ui.rs::Ui`): the group stack and the renderer.  The head of
`stack` is the topmost (current) group. -/
structure Ui where
  stack : List Group
  renderer : RState
deriving DecidableEq, Repr

/-- `Ui::root`: clears the group stack and pushes the root group with
position (0,0), the given size and layout, a zero cursor, and the default
line cap `Butt`. -/
def Ui.root (ui : Ui) (size : Vector) (layout : Layout) : Ui :=
  { ui with
    stack := [{ rect := ⟨⟨0, 0⟩, size⟩
                layout := layout
                cursor := ⟨0, 0⟩
                line_cap := LineCap.Butt }] }

/-- `Ui::push`: pushes a group with the given size and layout; the child's
absolute position is computed from the current top's layout mode and cursor.
Panics (`none`) when the stack is empty (`Ui::top`). -/
def Ui.push (ui : Ui) (size : Vector) (layout : Layout) : Option Ui :=
  match ui.stack with
  | [] => none
  | top :: rest =>
    let position : Point :=
      match top.layout with
      | Layout.Freeform | Layout.Horizontal | Layout.Vertical =>
        top.rect.position + top.cursor
      | Layout.HorizontalRev => top.rect.top_right + top.cursor - ⟨size.x, 0⟩
      | Layout.VerticalRev => top.rect.bottom_left + top.cursor - ⟨0, size.y⟩
    some { ui with
           stack := { rect := ⟨position, size⟩
                      layout := layout
                      cursor := ⟨0, 0⟩
                      line_cap := top.line_cap } :: top :: rest }

/-- `Ui::pop`: pops the top group and advances the cursor of the group under
it according to that group's layout mode.  Panics (`none`) when the stack has
fewer than two groups (`Vec::pop().expect` resp. `Ui::top_mut`). -/
def Ui.pop (ui : Ui) : Option Ui :=
  match ui.stack with
  | group :: top :: rest =>
    let top' : Group :=
      match top.layout with
      | Layout.Freeform => top
      | Layout.Horizontal =>
        { top with cursor := ⟨top.cursor.x + group.rect.width, top.cursor.y⟩ }
      | Layout.Vertical =>
        { top with cursor := ⟨top.cursor.x, top.cursor.y + group.rect.height⟩ }
      | Layout.HorizontalRev =>
        { top with cursor := ⟨top.cursor.x - group.rect.width, top.cursor.y⟩ }
      | Layout.VerticalRev =>
        { top with cursor := ⟨top.cursor.x, top.cursor.y - group.rect.height⟩ }
    some { ui with stack := top' :: rest }
  | _ => none

/-- `Ui::remaining_size`: size minus cursor on forward layouts, size plus
cursor on reversed ones, (0,0) on Freeform.  Panics (`none`) on an empty
stack. -/
def Ui.remaining_size (ui : Ui) : Option Vector :=
  match ui.stack with
  | [] => none
  | top :: _ =>
    some (match top.layout with
      | Layout.Freeform => ⟨0, 0⟩
      | Layout.Horizontal | Layout.Vertical => top.rect.size - top.cursor
      | Layout.HorizontalRev | Layout.VerticalRev => top.rect.size + top.cursor)

/-- `Ui::remaining_width`: per-layout remaining width of the current group.
Panics (`none`) on an empty stack. -/
def Ui.remaining_width (ui : Ui) : Option ℚ :=
  match ui.stack with
  | [] => none
  | top :: _ =>
    some (match top.layout with
      | Layout.Freeform => 0
      | Layout.Horizontal => top.rect.width - top.cursor.x
      | Layout.Vertical => top.rect.width
      | Layout.HorizontalRev => top.rect.width + top.cursor.x
      | Layout.VerticalRev => top.rect.width)

/-- `Ui::remaining_height`: per-layout remaining height of the current group.
Panics (`none`) on an empty stack. -/
def Ui.remaining_height (ui : Ui) : Option ℚ :=
  match ui.stack with
  | [] => none
  | top :: _ =>
    some (match top.layout with
      | Layout.Freeform => 0
      | Layout.Horizontal => top.rect.height
      | Layout.Vertical => top.rect.height - top.cursor.y
      | Layout.HorizontalRev => top.rect.height
      | Layout.VerticalRev => top.rect.height + top.cursor.y)

/-- `Ui::align`: repositions the current group inside its direct parent's
rectangle.  Panics (`none`) with fewer than two groups on the stack. -/
def Ui.align (ui : Ui) (alignment : Alignment) : Option Ui :=
  match ui.stack with
  | subject :: parent :: rest =>
    let px : ℚ :=
      match alignment.1 with
      | AlignH.Left => parent.rect.left
      | AlignH.Center => parent.rect.center_x - subject.rect.width / 2
      | AlignH.Right => parent.rect.right - subject.rect.width
    let py : ℚ :=
      match alignment.2 with
      | AlignV.Top => parent.rect.top
      | AlignV.Middle => parent.rect.center_y - subject.rect.height / 2
      | AlignV.Bottom => parent.rect.bottom - subject.rect.height
    some { ui with
           stack := { subject with
                      rect := { subject.rect with position := ⟨px, py⟩ } }
                    :: parent :: rest }
  | _ => none

/-- `Ui::fit`: resizes the current group to its accumulated cursor extent.
Freeform sets both axes to the cursor, Horizontal the width only, Vertical the
height only; panics (`none`) on the reversed layouts or an empty stack. -/
def Ui.fit (ui : Ui) : Option Ui :=
  match ui.stack with
  | [] => none
  | top :: rest =>
    match top.layout with
    | Layout.Freeform =>
      some { ui with
             stack := { top with rect := { top.rect with size := top.cursor } } :: rest }
    | Layout.Horizontal =>
      some { ui with
             stack := { top with
                        rect := { top.rect with
                                  size := ⟨top.cursor.x, top.rect.size.y⟩ } } :: rest }
    | Layout.Vertical =>
      some { ui with
             stack := { top with
                        rect := { top.rect with
                                  size := ⟨top.rect.size.x, top.cursor.y⟩ } } :: rest }
    | Layout.HorizontalRev | Layout.VerticalRev => none

/-- `Ui::draw`: reads the current group's absolute position, pushes the
renderer transform, translates by that position, invokes the caller-supplied
callback, then pops the transform.  Panics (`none`) on an empty stack
(`Ui::top`). -/
def Ui.draw (ui : Ui) (do_draw : Ui → Ui) : Option Ui :=
  match ui.stack with
  | [] => none
  | top :: _ =>
    let translation := top.rect.position
    let ui1 : Ui := { ui with renderer := ui.renderer.push }
    let ui2 : Ui := { ui1 with renderer := ui1.renderer.translate translation }
    let ui3 : Ui := do_draw ui2
    some { ui3 with renderer := ui3.renderer.pop }

/-- A push of the given size immediately followed by its matching pop
(the child gets `Freeform` layout; the child's own layout mode is irrelevant
to the parent's cursor advancement). -/
def Ui.pushPop (ui : Ui) (size : Vector) : Option Ui :=
  (ui.push size Layout.Freeform).bind Ui.pop

/-- A sequence of push/pop pairs, one per listed child size. -/
def Ui.pushPopAll (ui : Ui) (sizes : List Vector) : Option Ui :=
  match sizes with
  | [] => some ui
  | s :: rest => (ui.pushPop s).bind (fun u => u.pushPopAll rest)

/-- The child anchor position table of spec section 4.2: forward layouts
anchor at `parent.position + parent.cursor`, `HorizontalRev` at
`parent.top_right + parent.cursor - (size.x, 0)`, `VerticalRev` at
`parent.bottom_left + parent.cursor - (0, size.y)`. -/
def childAnchor (parent : Group) (size : Vector) : Point :=
  match parent.layout with
  | Layout.Freeform | Layout.Horizontal | Layout.Vertical =>
    parent.rect.position + parent.cursor
  | Layout.HorizontalRev => parent.rect.top_right + parent.cursor - ⟨size.x, 0⟩
  | Layout.VerticalRev => parent.rect.bottom_left + parent.cursor - ⟨0, size.y⟩

/-- The parent-cursor advancement table of spec section 4.3: Freeform leaves
the cursor unchanged, Horizontal adds the child's width to `cursor.x`,
Vertical adds the child's height to `cursor.y`, and the reversed modes
subtract instead. -/
def popAdvance (parent : Group) (child : Group) : Vector :=
  match parent.layout with
  | Layout.Freeform => parent.cursor
  | Layout.Horizontal => ⟨parent.cursor.x + child.rect.width, parent.cursor.y⟩
  | Layout.Vertical => ⟨parent.cursor.x, parent.cursor.y + child.rect.height⟩
  | Layout.HorizontalRev => ⟨parent.cursor.x - child.rect.width, parent.cursor.y⟩
  | Layout.VerticalRev => ⟨parent.cursor.x, parent.cursor.y - child.rect.height⟩

/-- Fixture: an initial renderer state. -/
def rs0 : RState := ⟨⟨0, 0⟩, [], []⟩

/-- Fixture: a Horizontal group with a nonzero cursor. -/
def gHor : Group := ⟨⟨⟨1, 2⟩, ⟨8, 6⟩⟩, Layout.Horizontal, ⟨3, 1⟩, LineCap.Round⟩

/-- Fixture: a Freeform group. -/
def gFree : Group := ⟨⟨⟨0, 0⟩, ⟨10, 10⟩⟩, Layout.Freeform, ⟨2, 2⟩, LineCap.Butt⟩

/-- Fixture: a HorizontalRev group of width 2 at the origin, zero cursor. -/
def gHRev : Group := ⟨⟨⟨0, 0⟩, ⟨2, 2⟩⟩, Layout.HorizontalRev, ⟨0, 0⟩, LineCap.Butt⟩

/-- Fixture: a one-group stack whose top is `gHor`. -/
def uiHor : Ui := ⟨[gHor], rs0⟩

/-- Fixture: a one-group stack whose top is `gHRev`. -/
def uiHRev : Ui := ⟨[gHRev], rs0⟩

/-- Fixture: a two-group stack, subject `gFree` inside parent `gHor`. -/
def uiTwo : Ui := ⟨[gFree, gHor], rs0⟩

end Paws

namespace Paws

/-- C3: after `root(size, layout)` the stack holds exactly one group, with
rectangle `{position := (0,0), size := size}`, the given layout mode, cursor
(0,0) and the default line cap `Butt`, regardless of the prior state. -/
theorem root_resets_stack (ui : Ui) (size : Vector) (layout : Layout) :
    (ui.root size layout).stack =
      [{ rect := ⟨⟨0, 0⟩, size⟩
         layout := layout
         cursor := ⟨0, 0⟩
         line_cap := LineCap.Butt }] := rfl

/-- C1: on a non-empty stack, `push(size, layout)` appends exactly one new
group; its absolute position follows the spec's anchor table for the parent's
layout mode, its size is the given size, its cursor is (0,0), and its line cap
is the parent's. -/
theorem push_appends_child (ui : Ui) (parent : Group) (rest : List Group)
    (size : Vector) (layout : Layout) (hs : ui.stack = parent :: rest) :
    ui.push size layout =
      some { ui with stack :=
        { rect := ⟨childAnchor parent size, size⟩
          layout := layout
          cursor := ⟨0, 0⟩
          line_cap := parent.line_cap } :: parent :: rest } := by
  obtain ⟨prect, pl, pcur, pcap⟩ := parent
  simp only [Ui.push, hs]
  cases pl <;> rfl

/-- Witness for C1: pushing a (3,4) Vertical child onto the concrete
Horizontal stack `uiHor`. -/
theorem push_appends_child_witness :
    uiHor.push ⟨3, 4⟩ Layout.Vertical =
      some { uiHor with stack :=
        { rect := ⟨childAnchor gHor ⟨3, 4⟩, ⟨3, 4⟩⟩
          layout := Layout.Vertical
          cursor := ⟨0, 0⟩
          line_cap := gHor.line_cap } :: gHor :: [] } :=
  push_appends_child uiHor gHor [] ⟨3, 4⟩ Layout.Vertical rfl

/-- C2: on a stack with at least two groups, `pop()` removes the topmost group
and updates the new top's cursor by the spec's advancement table (everything
else about the parent, the deeper groups and the renderer is unchanged). -/
theorem pop_advances_parent_cursor (ui : Ui) (child parent : Group)
    (rest : List Group) (hs : ui.stack = child :: parent :: rest) :
    ui.pop =
      some { ui with stack :=
        { parent with cursor := popAdvance parent child } :: rest } := by
  obtain ⟨prect, pl, pcur, pcap⟩ := parent
  simp only [Ui.pop, hs]
  cases pl <;> rfl

/-- Witness for C2: popping the concrete two-group stack `uiTwo`. -/
theorem pop_advances_parent_cursor_witness :
    uiTwo.pop =
      some { uiTwo with stack :=
        { gHor with cursor := popAdvance gHor gFree } :: [] } :=
  pop_advances_parent_cursor uiTwo gFree gHor [] rfl

/-- C4: the remaining-space queries on a non-empty stack — zero under
Freeform; `size - cursor` under the forward layouts and `size + cursor` under
the reversed ones for `remaining_size`; and for the single-axis queries the
active axis follows the same rule while the non-active axis returns the full
axis size. -/
theorem remaining_space_spec (ui : Ui) (top : Group) (rest : List Group)
    (hs : ui.stack = top :: rest) :
    (top.layout = Layout.Freeform →
      ui.remaining_size = some ⟨0, 0⟩ ∧ ui.remaining_width = some 0 ∧
        ui.remaining_height = some 0) ∧
    ((top.layout = Layout.Horizontal ∨ top.layout = Layout.Vertical) →
      ui.remaining_size = some (top.rect.size - top.cursor)) ∧
    ((top.layout = Layout.HorizontalRev ∨ top.layout = Layout.VerticalRev) →
      ui.remaining_size = some (top.rect.size + top.cursor)) ∧
    (top.layout = Layout.Horizontal →
      ui.remaining_width = some (top.rect.width - top.cursor.x) ∧
        ui.remaining_height = some top.rect.height) ∧
    (top.layout = Layout.Vertical →
      ui.remaining_width = some top.rect.width ∧
        ui.remaining_height = some (top.rect.height - top.cursor.y)) ∧
    (top.layout = Layout.HorizontalRev →
      ui.remaining_width = some (top.rect.width + top.cursor.x) ∧
        ui.remaining_height = some top.rect.height) ∧
    (top.layout = Layout.VerticalRev →
      ui.remaining_width = some top.rect.width ∧
        ui.remaining_height = some (top.rect.height + top.cursor.y)) := by
  cases hL : top.layout <;>
    simp [Ui.remaining_size, Ui.remaining_width, Ui.remaining_height, hs, hL]

/-- Witness for C4: the remaining-space queries evaluated on the concrete
Horizontal stack `uiHor`. -/
theorem remaining_space_spec_witness :
    (gHor.layout = Layout.Freeform →
      uiHor.remaining_size = some ⟨0, 0⟩ ∧ uiHor.remaining_width = some 0 ∧
        uiHor.remaining_height = some 0) ∧
    ((gHor.layout = Layout.Horizontal ∨ gHor.layout = Layout.Vertical) →
      uiHor.remaining_size = some (gHor.rect.size - gHor.cursor)) ∧
    ((gHor.layout = Layout.HorizontalRev ∨ gHor.layout = Layout.VerticalRev) →
      uiHor.remaining_size = some (gHor.rect.size + gHor.cursor)) ∧
    (gHor.layout = Layout.Horizontal →
      uiHor.remaining_width = some (gHor.rect.width - gHor.cursor.x) ∧
        uiHor.remaining_height = some gHor.rect.height) ∧
    (gHor.layout = Layout.Vertical →
      uiHor.remaining_width = some gHor.rect.width ∧
        uiHor.remaining_height = some (gHor.rect.height - gHor.cursor.y)) ∧
    (gHor.layout = Layout.HorizontalRev →
      uiHor.remaining_width = some (gHor.rect.width + gHor.cursor.x) ∧
        uiHor.remaining_height = some gHor.rect.height) ∧
    (gHor.layout = Layout.VerticalRev →
      uiHor.remaining_width = some gHor.rect.width ∧
        uiHor.remaining_height = some (gHor.rect.height + gHor.cursor.y)) :=
  remaining_space_spec uiHor gHor [] rfl

/-- C7: `pop()` fails exactly when the stack holds at most one group; with at
least two groups it succeeds. -/
theorem pop_fails_iff (ui : Ui) : ui.pop = none ↔ ui.stack.length ≤ 1 := by
  obtain ⟨st, r⟩ := ui
  rcases st with _ | ⟨g, _ | ⟨g2, t⟩⟩ <;> simp [Ui.pop]

/-- C10: on a non-empty stack, `push` only appends: every group already on the
stack (and the renderer) is exactly as before, with one new group on top. -/
theorem push_only_appends (ui : Ui) (size : Vector) (layout : Layout)
    (h : ui.stack ≠ []) :
    ∃ child, ui.push size layout = some { ui with stack := child :: ui.stack } := by
  cases hst : ui.stack with
  | nil => exact absurd hst h
  | cons top rest =>
    obtain ⟨trect, tl, tcur, tcap⟩ := top
    refine ⟨{ rect := ⟨childAnchor ⟨trect, tl, tcur, tcap⟩ size, size⟩
              layout := layout
              cursor := ⟨0, 0⟩
              line_cap := tcap }, ?_⟩
    simp only [Ui.push, hst]
    cases tl <;> rfl

/-- Witness for C10: pushing onto the concrete stack `uiTwo` appends one group
and leaves the existing stack intact. -/
theorem push_only_appends_witness :
    ∃ child, uiTwo.push ⟨5, 5⟩ Layout.Horizontal =
      some { uiTwo with stack := child :: uiTwo.stack } :=
  push_only_appends uiTwo ⟨5, 5⟩ Layout.Horizontal (by simp [uiTwo])

/-- C8: with at least two groups on the stack, `align(alignment)` succeeds and
is idempotent: aligning again with the same alignment reproduces the same
state (the rectangle is recomputed statelessly from the parent's geometry and
the subject's unchanged size). -/
theorem align_idempotent (ui : Ui) (subject parent : Group) (rest : List Group)
    (a : Alignment) (hs : ui.stack = subject :: parent :: rest) :
    ∃ ui', ui.align a = some ui' ∧ ui'.align a = some ui' := by
  obtain ⟨st, r⟩ := ui
  replace hs : st = subject :: parent :: rest := hs
  subst hs
  obtain ⟨ah, av⟩ := a
  cases ah <;> cases av <;> exact ⟨_, rfl, rfl⟩

/-- Witness for C8: centering the subject of the concrete stack `uiTwo`
twice. -/
theorem align_idempotent_witness :
    ∃ ui', uiTwo.align (AlignH.Center, AlignV.Middle) = some ui' ∧
      ui'.align (AlignH.Center, AlignV.Middle) = some ui' :=
  align_idempotent uiTwo gFree gHor [] (AlignH.Center, AlignV.Middle) rfl

/-- C9: on a non-empty stack, `draw(callback)` performs exactly
push-transform, translate-by-group-position, the callback's own renderer
calls, pop-transform; and when the callback leaves the transform stack as it
found it, the renderer's transform and saved stack are restored to their
values from before the call. -/
theorem draw_spec (top : Group) (rest : List Group) (r : RState) (f : Ui → Ui)
    (extra : List ROp)
    (htrace :
      (f ⟨top :: rest, (r.push).translate top.rect.position⟩).renderer.trace =
        ((r.push).translate top.rect.position).trace ++ extra)
    (hsaved :
      (f ⟨top :: rest, (r.push).translate top.rect.position⟩).renderer.saved =
        ((r.push).translate top.rect.position).saved) :
    ∃ ui', Ui.draw ⟨top :: rest, r⟩ f = some ui' ∧
      ui'.renderer.trace =
        r.trace ++ [ROp.push, ROp.translate top.rect.position] ++ extra ++ [ROp.pop] ∧
      ui'.renderer.transform = r.transform ∧
      ui'.renderer.saved = r.saved := by
  refine ⟨_, rfl, ?_, ?_, ?_⟩
  · simp only [RState.pop]
    rw [htrace]
    simp [RState.translate, RState.push, List.append_assoc]
  · simp only [RState.pop]
    rw [hsaved]
    simp [RState.translate, RState.push]
  · simp only [RState.pop]
    rw [hsaved]
    simp [RState.translate, RState.push]

/-- Witness for C9: drawing with the identity callback on the concrete stack
around `gHor`. -/
theorem draw_spec_witness :
    ∃ ui', Ui.draw ⟨gHor :: [], rs0⟩ id = some ui' ∧
      ui'.renderer.trace =
        rs0.trace ++ [ROp.push, ROp.translate gHor.rect.position] ++ [] ++ [ROp.pop] ∧
      ui'.renderer.transform = rs0.transform ∧
      ui'.renderer.saved = rs0.saved :=
  draw_spec gHor [] rs0 id [] rfl rfl

/-- The state of `uiHRev` after pushing a width-1 child and popping it: the
HorizontalRev parent's cursor has moved to (-1, 0). -/
def uiHRevAfter : Ui := ⟨[{ gHRev with cursor := ⟨-1, 0⟩ }], rs0⟩

/-- C5 counterexample: on the HorizontalRev parent `gHRev` of width 2 with
zero cursor, pushing a child of width 1 and popping it changes
`remaining_width` from 2 to 1 — `remaining_width` is not invariant under a
push immediately followed by its matching pop. -/
theorem rw_not_invariant_counterexample :
    (uiHRev.push ⟨1, 1⟩ Layout.Freeform).bind Ui.pop = some uiHRevAfter ∧
      uiHRev.remaining_width = some 2 ∧
      uiHRevAfter.remaining_width = some 1 ∧
      uiHRevAfter.remaining_width ≠ uiHRev.remaining_width := by
  refine ⟨?_, ?_, ?_, ?_⟩ <;>
    norm_num [uiHRev, uiHRevAfter, gHRev, rs0, Ui.push, Ui.pop,
      Ui.remaining_width, Rect.top_right, Rect.bottom_left, Rect.width,
      Vector.add_def, Vector.sub_def]

/-- C5 (amended): for a HorizontalRev parent of width W at x-position x0 with
zero cursor, pushing a single child of width w places it at x-position
x0 + W - w; `remaining_width` equals W before the push and W - w after the
matching pop — it is not invariant under push-then-pop but decreases by
exactly the popped child's width. -/
theorem rw_push_pop_amended (x0 y0 W H w hh : ℚ) (pcap : LineCap)
    (rest : List Group) (r : RState) (clayout : Layout) :
    ∃ child ui1 ui2,
      (Ui.mk (⟨⟨⟨x0, y0⟩, ⟨W, H⟩⟩, Layout.HorizontalRev, ⟨0, 0⟩, pcap⟩ :: rest)
          r).remaining_width = some W ∧
      (Ui.mk (⟨⟨⟨x0, y0⟩, ⟨W, H⟩⟩, Layout.HorizontalRev, ⟨0, 0⟩, pcap⟩ :: rest)
          r).push ⟨w, hh⟩ clayout = some ui1 ∧
      ui1.stack =
        child :: ⟨⟨⟨x0, y0⟩, ⟨W, H⟩⟩, Layout.HorizontalRev, ⟨0, 0⟩, pcap⟩ :: rest ∧
      child.rect.position.x = x0 + W - w ∧
      child.rect.size = (⟨w, hh⟩ : Vector) ∧
      ui1.pop = some ui2 ∧
      ui2.remaining_width = some (W - w) := by
  refine ⟨_, _, _, ?_, rfl, rfl, ?_, rfl, rfl, ?_⟩
  · exact congrArg some (add_zero W)
  · show x0 + W + 0 - w = x0 + W - w
    ring
  · exact congrArg some (by ring : W + (0 - w) = W - w)

/-- Cursor accumulation in a Horizontal group: a sequence of push/pop pairs
advances the cursor's x coordinate by the sum of the children's widths and
leaves everything else unchanged. -/
theorem pushPopAll_cursor_h (sizes : List Vector) (trect : Rect) (tcur : Vector)
    (tcap : LineCap) (rest : List Group) (r : RState) :
    Ui.pushPopAll ⟨⟨trect, Layout.Horizontal, tcur, tcap⟩ :: rest, r⟩ sizes =
      some ⟨⟨trect, Layout.Horizontal,
             ⟨tcur.x + (sizes.map Vector.x).sum, tcur.y⟩, tcap⟩ :: rest, r⟩ := by
  induction sizes generalizing tcur with
  | nil =>
    obtain ⟨cx, cy⟩ := tcur
    simp [Ui.pushPopAll]
  | cons s ss ih =>
    have step : Ui.pushPop ⟨⟨trect, Layout.Horizontal, tcur, tcap⟩ :: rest, r⟩ s =
        some ⟨⟨trect, Layout.Horizontal, ⟨tcur.x + s.x, tcur.y⟩, tcap⟩ :: rest, r⟩ := rfl
    show (Ui.pushPop ⟨⟨trect, Layout.Horizontal, tcur, tcap⟩ :: rest, r⟩ s).bind
        (fun u => u.pushPopAll ss) = _
    rw [step]
    show Ui.pushPopAll
        ⟨⟨trect, Layout.Horizontal, ⟨tcur.x + s.x, tcur.y⟩, tcap⟩ :: rest, r⟩ ss = _
    rw [ih]
    simp [add_assoc]

/-- Cursor accumulation in a Vertical group: a sequence of push/pop pairs
advances the cursor's y coordinate by the sum of the children's heights and
leaves everything else unchanged. -/
theorem pushPopAll_cursor_v (sizes : List Vector) (trect : Rect) (tcur : Vector)
    (tcap : LineCap) (rest : List Group) (r : RState) :
    Ui.pushPopAll ⟨⟨trect, Layout.Vertical, tcur, tcap⟩ :: rest, r⟩ sizes =
      some ⟨⟨trect, Layout.Vertical,
             ⟨tcur.x, tcur.y + (sizes.map Vector.y).sum⟩, tcap⟩ :: rest, r⟩ := by
  induction sizes generalizing tcur with
  | nil =>
    obtain ⟨cx, cy⟩ := tcur
    simp [Ui.pushPopAll]
  | cons s ss ih =>
    have step : Ui.pushPop ⟨⟨trect, Layout.Vertical, tcur, tcap⟩ :: rest, r⟩ s =
        some ⟨⟨trect, Layout.Vertical, ⟨tcur.x, tcur.y + s.y⟩, tcap⟩ :: rest, r⟩ := rfl
    show (Ui.pushPop ⟨⟨trect, Layout.Vertical, tcur, tcap⟩ :: rest, r⟩ s).bind
        (fun u => u.pushPopAll ss) = _
    rw [step]
    show Ui.pushPopAll
        ⟨⟨trect, Layout.Vertical, ⟨tcur.x, tcur.y + s.y⟩, tcap⟩ :: rest, r⟩ ss = _
    rw [ih]
    simp [add_assoc]

/-- C6: after pushing and popping children of total width (resp. height) E
into a Horizontal (resp. Vertical) group with zero cursor, `fit()` sets the
group's width (resp. height) to exactly E and leaves the other axis of its
size untouched; under Freeform `fit()` sets both axes of the size to the
cursor; under either reversed layout `fit()` fails fatally. -/
theorem fit_spec (trect : Rect) (tcur : Vector) (tcap : LineCap)
    (rest : List Group) (r : RState) (sizes : List Vector) :
    ((Ui.pushPopAll ⟨⟨trect, Layout.Horizontal, ⟨0, 0⟩, tcap⟩ :: rest, r⟩
          sizes).bind Ui.fit =
        some ⟨⟨⟨trect.position, ⟨(sizes.map Vector.x).sum, trect.size.y⟩⟩,
               Layout.Horizontal, ⟨(sizes.map Vector.x).sum, 0⟩, tcap⟩ :: rest, r⟩) ∧
    ((Ui.pushPopAll ⟨⟨trect, Layout.Vertical, ⟨0, 0⟩, tcap⟩ :: rest, r⟩
          sizes).bind Ui.fit =
        some ⟨⟨⟨trect.position, ⟨trect.size.x, (sizes.map Vector.y).sum⟩⟩,
               Layout.Vertical, ⟨0, (sizes.map Vector.y).sum⟩, tcap⟩ :: rest, r⟩) ∧
    (Ui.fit ⟨⟨trect, Layout.Freeform, tcur, tcap⟩ :: rest, r⟩ =
        some ⟨⟨⟨trect.position, tcur⟩, Layout.Freeform, tcur, tcap⟩ :: rest, r⟩) ∧
    (Ui.fit ⟨⟨trect, Layout.HorizontalRev, tcur, tcap⟩ :: rest, r⟩ = none) ∧
    (Ui.fit ⟨⟨trect, Layout.VerticalRev, tcur, tcap⟩ :: rest, r⟩ = none) := by
  refine ⟨?_, ?_, rfl, rfl, rfl⟩
  · rw [pushPopAll_cursor_h]
    simp [Ui.fit]
  · rw [pushPopAll_cursor_v]
    simp [Ui.fit]

end Paws
